import Mathlib

/-!
Verification development for the "Enterprise AI Coding Assistant" repository:
an Ollama-backed LLM gateway, a user-auth service, a model-registry
("model manager") service, a React admin dashboard and a VS Code extension.

The TypeScript client code (admin dashboard `authStore.ts` / `Models.tsx`
page, VS Code `extension.ts`) is embedded directly.  The Python
model-registry and auth services are not present in the repository snapshot
(only their READMEs and HTTP clients are), so their write operations and
the default-model resolution contract are modelled from the specification
document, as marked in the individual doc comments.
-/

/-- The `User` record, from `admin_dashboard/src/types` (`interface User`). -/
structure User where
  id : String
  username : String
  email : String
  is_admin : Bool
  is_active : Bool
  created_at : String
deriving Repr, DecidableEq

/-- The `Model` record, from `admin_dashboard/src/types` (`interface Model`,
also `interface Model` in `vscode_extension/src/extension.ts`).
`parameters` (a free-form JSON record) is modelled as an association list. -/
structure Model where
  id : String
  name : String
  provider : String
  model_id : String
  description : Option String
  context_length : Nat
  is_active : Bool
  is_default : Bool
  capabilities : List String
  parameters : List (String × String)
deriving Repr, DecidableEq

/-- The `ModelAccess` record (an access grant), from
`admin_dashboard/src/types` (`interface ModelAccess`).  Timestamps
(`granted_at`, `expires_at`) are modelled as natural epoch instants. -/
structure AccessGrant where
  id : String
  user_id : String
  model_id : String
  granted_by : String
  granted_at : Nat
  expires_at : Option Nat
  is_active : Bool
deriving Repr, DecidableEq

/-- The `UsageRecord` data of the registry's usage log.  Modelled from the
spec: "append-only log of (user, model, latency, outcome) tuples" (the
usage table itself is part of the absent model-manager service). -/
structure UsageRecord where
  user_id : String
  model_id : String
  latency_ms : Nat
  outcome : String
deriving Repr, DecidableEq

/-- The dashboard auth store's state shape, from `authStore.ts`
(`interface AuthState`, data fields only). -/
structure AuthState where
  user : Option User
  token : Option String
  isAuthenticated : Bool
  isLoading : Bool
deriving Repr, DecidableEq

/-- The initial state of `useAuthStore` in `authStore.ts` lines 37-40:
`user: null, token: null, isAuthenticated: true, isLoading: false`. -/
def initialAuthState : AuthState :=
  { user := none, token := none, isAuthenticated := true, isLoading := false }

/-- Outcome of rendering a route guarded by `ProtectedRoute` in `App.tsx`. -/
inductive RouteOutcome where
  | renderChildren
  | redirectLogin
deriving Repr, DecidableEq

/-- The `ProtectedRoute` wrapper from `App.tsx` lines 23-28: render the
children unless `isAuthenticated` is false, in which case navigate to
`/login`. -/
def protectedRoute (s : AuthState) : RouteOutcome :=
  if s.isAuthenticated then .renderChildren else .redirectLogin

/-- The axios instance's mutable default headers (`authStore.ts` keeps the
bearer token in `axiosInstance.defaults.headers.common.Authorization`).
Only the Authorization entry is relevant here. -/
structure AxiosDefaults where
  authorization : Option String
deriving Repr, DecidableEq

/-- An outgoing HTTP request as the clients build it: method, path, the
Content-Type header if explicitly set, the Authorization header if set, and
the form fields of a form-encoded body. -/
structure HttpRequest where
  method : String
  path : String
  contentType : Option String
  authorization : Option String
  formFields : List (String × String)
deriving Repr, DecidableEq

/-- The token request built by the dashboard's `login` (`authStore.ts`
lines 45-53): a POST of form fields `username`/`password` to
`/api/auth/token` with Content-Type `application/x-www-form-urlencoded`. -/
def dashboardTokenRequest (username password : String) : HttpRequest :=
  { method := "POST"
    path := "/api/auth/token"
    contentType := some "application/x-www-form-urlencoded"
    authorization := none
    formFields := [("username", username), ("password", password)] }

/-- The state and axios-defaults update performed by the dashboard `login`
on success (`authStore.ts` lines 64-74): store the user and token, mark
authenticated, and set the axios default Authorization header to
`Bearer <access_token>`. -/
def dashboardLoginSuccess (s : AuthState) (d : AxiosDefaults)
    (access_token : String) (u : User) : AuthState × AxiosDefaults :=
  ({ s with user := some u, token := some access_token,
            isAuthenticated := true, isLoading := false },
   { d with authorization := some ("Bearer " ++ access_token) })

/-- Sending a request through the dashboard's shared `axiosInstance`: the
default Authorization header, when present, is attached to the request. -/
def axiosSend (d : AxiosDefaults) (req : HttpRequest) : HttpRequest :=
  match d.authorization with
  | some a => { req with authorization := some a }
  | none => req

/-- The dashboard's `checkAuth` (`authStore.ts` lines 101-129), as a
function of the store state, the axios defaults, and the outcome of the
`GET /api/auth/users/me` validation request.  With no token it only clears
`isAuthenticated`; with a token it first sets the Authorization default
header, then on success stores the user, and on failure deletes the header
and resets `user`, `token` and `isAuthenticated`. -/
def checkAuth (s : AuthState) (d : AxiosDefaults) (result : Except Unit User) :
    AuthState × AxiosDefaults :=
  match s.token with
  | none => ({ s with isAuthenticated := false }, d)
  | some tok =>
    match result with
    | .ok u =>
        ({ s with user := some u, isAuthenticated := true },
         { d with authorization := some ("Bearer " ++ tok) })
    | .error _ =>
        ({ s with user := none, token := none, isAuthenticated := false },
         { d with authorization := none })

/-- The `AuthToken` payload returned by `POST /token`, from
`vscode_extension/src/extension.ts` (`interface AuthToken`). -/
structure AuthToken where
  access_token : String
  token_type : String
  user_id : String
  username : String
  is_admin : Bool
deriving Repr, DecidableEq

/-- The VS Code extension's session state: the saved auth token and the
currently selected model (`extension.ts` lines 52-53). -/
structure ExtensionState where
  authToken : Option AuthToken
  currentModel : Option Model
deriving Repr, DecidableEq

/-- The token request built by the extension's `login` (`extension.ts`
lines 189-193): URL-encoded `username`/`password` form parameters POSTed
to `/token`. -/
def extensionTokenRequest (username password : String) : HttpRequest :=
  { method := "POST"
    path := "/token"
    contentType := some "application/x-www-form-urlencoded"
    authorization := none
    formFields := [("username", username), ("password", password)] }

/-- The extension's state update on successful login (`extension.ts`
line 194): `authToken = response.data`. -/
def extensionLoginSuccess (st : ExtensionState) (tok : AuthToken) : ExtensionState :=
  { st with authToken := some tok }

/-- The request interceptor installed by `setupAxiosInterceptors`
(`extension.ts` lines 137-152) on both `apiClient` and
`modelManagerClient`: when a token is held, set the request's
Authorization header to `Bearer <access_token>`. -/
def applyAuthInterceptor (st : ExtensionState) (req : HttpRequest) : HttpRequest :=
  match st.authToken with
  | some t => { req with authorization := some ("Bearer " ++ t.access_token) }
  | none => req

/-- The extension's `loadDefaultModel` on success (`extension.ts`
lines 154-158): `currentModel` becomes the model returned by
`GET /default-model`. -/
def loadDefaultModel (st : ExtensionState) (d : Model) : ExtensionState :=
  { st with currentModel := some d }

/-- The list offered by the extension's `switchModel` quick pick
(`extension.ts` line 383): `response.data.filter(model => model.is_active)`. -/
def switchModelChoices (models : List Model) : List Model :=
  models.filter (fun m => m.is_active)

/-- The extension's state update when the user picks a model in
`switchModel` (`extension.ts` line 403): `currentModel = selected.model`. -/
def switchModelPick (st : ExtensionState) (picked : Model) : ExtensionState :=
  { st with currentModel := some picked }

/-- Body of `POST /autocomplete` as built by `generateCode` and the inline
completion provider (`extension.ts` lines 281-287): prompt, the current
model's `model_id`, and max tokens (the scalar generation knobs
temperature/stop-sequences are UI configuration, elided). -/
structure CompletionRequest where
  prompt : String
  model_id : Option String
  max_tokens : Nat
deriving Repr, DecidableEq

/-- A chat message, from `extension.ts` (`interface ChatMessage`). -/
structure ChatMessage where
  role : String
  content : String
deriving Repr, DecidableEq

/-- Body of `POST /chat` as built by `explainCode` and the chat view
(`extension.ts` lines 341-348 and 534-539). -/
structure ChatRequest where
  messages : List ChatMessage
  model_id : Option String
  max_tokens : Nat
deriving Repr, DecidableEq

/-- The extension's `generateCode` (`extension.ts` lines 254-287): it
returns without a request unless logged in with a current model, and
otherwise posts the prompt with `model_id: currentModel?.model_id`. -/
def generateCodeRequest (st : ExtensionState) (promptText : String)
    (maxTokens : Nat) : Option CompletionRequest :=
  match st.authToken, st.currentModel with
  | some _, some m => some { prompt := promptText, model_id := some m.model_id, max_tokens := maxTokens }
  | _, _ => none

/-- The extension's chat request construction (`explainCode`,
`ChatViewProvider`): guarded the same way, with
`model_id: currentModel?.model_id`. -/
def chatRequest (st : ExtensionState) (msgs : List ChatMessage)
    (maxTokens : Nat) : Option ChatRequest :=
  match st.authToken, st.currentModel with
  | some _, some m => some { messages := msgs, model_id := some m.model_id, max_tokens := maxTokens }
  | _, _ => none

/-- The dashboard Models page's `setAsDefault` local update
(`Models.tsx`, `setModels(models.map(model => (\x7b ...model,
is_default: model.id === modelId \x7d)))`): every model's `is_default`
becomes the test of its `id` against the targeted id. -/
def setAsDefault (models : List Model) (modelId : String) : List Model :=
  models.map (fun m => { m with is_default := m.id == modelId })

/-- Number of models flagged default in a list. -/
def countDefaults (models : List Model) : Nat :=
  models.countP (fun m => m.is_default)

/-- The `POST /models` payload, from `admin_dashboard/src/types`
(`interface CreateModelRequest`): the two flags are optional there. -/
structure CreateModelRequest where
  name : String
  provider : String
  model_id : String
  description : Option String
  context_length : Nat
  capabilities : List String
  parameters : List (String × String)
  is_active : Option Bool
  is_default : Option Bool
deriving Repr, DecidableEq

/-- The `PUT /models/\x7bmodel_id\x7d` payload, from
`admin_dashboard/src/types` (`interface UpdateModelRequest`): every field
optional, and `model_id`/`provider` not updatable. -/
structure UpdateModelRequest where
  name : Option String
  description : Option String
  context_length : Option Nat
  capabilities : Option (List String)
  parameters : Option (List (String × String))
  is_active : Option Bool
  is_default : Option Bool
deriving Repr, DecidableEq

/-- Modelled from the spec: the registry row created from a
`CreateModelRequest` by the absent model-manager service.  The dashboard
form defaults `is_active` to true and `is_default` to false, which is
taken as the server-side defaulting; the registry keys rows by `model_id`
(spec section 4.1 reconciles "by `model_id`", and the service README's
routes name their path parameter `model_id`), so the stored row id is the
`model_id`. -/
def modelOfCreate (r : CreateModelRequest) : Model :=
  { id := r.model_id
    name := r.name
    provider := r.provider
    model_id := r.model_id
    description := r.description
    context_length := r.context_length
    is_active := r.is_active.getD true
    is_default := r.is_default.getD false
    capabilities := r.capabilities
    parameters := r.parameters }

/-- Modelled from the spec: the row inserted for a backend model unseen
locally during sync ("insert unseen models as inactive-by-default",
spec section 4.1); the Ollama listing reports only the model name, which
becomes the row's `model_id`. -/
def syncedModel (mid : String) : Model :=
  { id := mid
    name := mid
    provider := "ollama"
    model_id := mid
    description := none
    context_length := 4096
    is_active := false
    is_default := false
    capabilities := []
    parameters := [] }

/-- Applying an `UpdateModelRequest` to one stored row: each present field
replaces the stored one, absent fields are untouched; `model_id` and
`provider` cannot change (the payload has no such fields). -/
def applyUpdate (m : Model) (u : UpdateModelRequest) : Model :=
  { m with
    name := u.name.getD m.name
    description := match u.description with | some d => some d | none => m.description
    context_length := u.context_length.getD m.context_length
    capabilities := u.capabilities.getD m.capabilities
    parameters := u.parameters.getD m.parameters
    is_active := u.is_active.getD m.is_active
    is_default := u.is_default.getD m.is_default }

/-- Modelled from the spec: the write operations of the model-registry
service (its Python source is not in the repository snapshot; the
operation set is the README's route list: `POST /models`,
`PUT /models/\x7bmodel_id\x7d`, `DELETE /models/\x7bmodel_id\x7d`,
`GET /models/sync/ollama`).  The dashboard's set-default action is the
update route with `is_default: true`. -/
inductive RegistryOp where
  | createModel (r : CreateModelRequest)
  | updateModel (mid : String) (u : UpdateModelRequest)
  | deleteModel (mid : String)
  | syncFromBackend (backendIds : List String)
deriving Repr, DecidableEq

/-- Modelled from the spec: a write that marks one model default
"must atomically unset the previous default" (spec section 4.1); the
transactional multi-row update leaves exactly the targeted row flagged. -/
def enforceSingleDefault (models : List Model) (mid : String) : List Model :=
  models.map (fun m => { m with is_default := m.model_id == mid })

/-- Modelled from the spec: one step of the registry's stored model list
under a write operation.  Create rejects a duplicate `model_id` (database
uniqueness); an update targeting an absent row changes nothing (HTTP 404);
a write setting `is_default` runs the transactional single-default update;
sync inserts unseen backend models as inactive and never deletes
(spec section 4.1). -/
def applyRegistryOp (models : List Model) : RegistryOp → List Model
  | .createModel r =>
    if models.any (fun x => x.model_id == r.model_id) then models
    else
      let m := modelOfCreate r
      if m.is_default then enforceSingleDefault (models ++ [m]) m.model_id
      else models ++ [m]
  | .updateModel mid u =>
    let updated := models.map (fun m => if m.model_id == mid then applyUpdate m u else m)
    if u.is_default == some true && models.any (fun m => m.model_id == mid) then
      enforceSingleDefault updated mid
    else updated
  | .deleteModel mid =>
    models.filter (fun m => !(m.model_id == mid))
  | .syncFromBackend backendIds =>
    backendIds.foldl
      (fun acc mid =>
        if acc.any (fun x => x.model_id == mid) then acc
        else acc ++ [syncedModel mid])
      models

/-- Applying a sequence of registry write operations in order. -/
def applyRegistryOps (models : List Model) (ops : List RegistryOp) : List Model :=
  ops.foldl applyRegistryOp models

/-- Registry state well-formedness: stored `model_id`s are unique (database
key) and at most one row is flagged default (spec sections 3 and 8). -/
def RegistryInv (models : List Model) : Prop :=
  (models.map (fun m => m.model_id)).Nodup ∧ countDefaults models ≤ 1

instance : DecidablePred RegistryInv := fun _ms =>
  inferInstanceAs (Decidable (_ ∧ _))

/-- Failure outcomes of model resolution, from the spec's failure modes
(section 4.1): unknown model id, access denied, no default configured. -/
inductive ResolveError where
  | notFound
  | forbidden
  | serviceUnavailable
deriving Repr, DecidableEq

/-- Modelled from the spec: an access grant authorizes `uid` for `mid` at
instant `now` when it names that user and model, is active, and is not
expired ("active, non-expired AccessGrant", spec section 4.1). -/
def grantValid (g : AccessGrant) (uid mid : String) (now : Nat) : Bool :=
  g.user_id == uid && g.model_id == mid && g.is_active &&
    (match g.expires_at with
     | none => true
     | some t => decide (now < t))

/-- Some grant in the list authorizes `uid` for `mid` at `now`. -/
def hasGrant (grants : List AccessGrant) (uid mid : String) (now : Nat) : Bool :=
  grants.any (fun g => grantValid g uid mid now)

/-- Modelled from the spec: default-model resolution and access-gated model
selection (spec section 4.1; the gateway/registry source implementing it is
not in the snapshot).  Given the admin flag, the user, the optionally
requested model id, the stored models and grants: an unknown requested id
is not-found; an admin may use any active model; a non-admin needs a valid
grant, else forbidden; with no requested model, fall back to the flagged
default — service-unavailable when none is configured, and for a non-admin
only with a grant on the default, else forbidden. -/
def resolveModel (isAdmin : Bool) (uid : String) (requested : Option String)
    (models : List Model) (grants : List AccessGrant) (now : Nat) :
    Except ResolveError Model :=
  match requested with
  | some mid =>
    match models.find? (fun m => m.model_id == mid) with
    | none => .error .notFound
    | some m =>
      if isAdmin then
        if m.is_active then .ok m else .error .forbidden
      else
        if hasGrant grants uid mid now then .ok m else .error .forbidden
  | none =>
    match models.find? (fun m => m.is_default) with
    | none => .error .serviceUnavailable
    | some d =>
      if isAdmin then .ok d
      else if hasGrant grants uid d.model_id now then .ok d
      else .error .forbidden

/-- Modelled from the spec: the registry's usage endpoints
(`POST /usage` records one usage, `GET /usage/stats` aggregates; service
source absent).  Reads carry the aggregation inputs but do not change the
log. -/
inductive UsageOp where
  | logUsage (r : UsageRecord)
  | getStats
deriving Repr, DecidableEq

/-- Modelled from the spec: effect of a usage operation on the stored log —
`POST /usage` appends one record, `GET /usage/stats` only reads
("append-only log ... used only for read-side aggregation", spec
section 3). -/
def applyUsageOp (log : List UsageRecord) : UsageOp → List UsageRecord
  | .logUsage r => log ++ [r]
  | .getStats => log

/-- Applying a sequence of usage operations in order. -/
def applyUsageOps (log : List UsageRecord) (ops : List UsageOp) : List UsageRecord :=
  ops.foldl applyUsageOp log

/-- A list whose keys are distinct holds at most one element with any given
key. -/
theorem countP_key_le_one {α : Type} (key : α → String) (l : List α) (k : String)
    (h : (l.map key).Nodup) : l.countP (fun x => key x == k) ≤ 1 := by
  induction l with
  | nil => simp
  | cons a l ih =>
    rw [List.map_cons, List.nodup_cons] at h
    obtain ⟨hka, hnd⟩ := h
    rw [List.countP_cons]
    by_cases hk : key a = k
    · have hzero : l.countP (fun x => key x == k) = 0 := by
        rw [List.countP_eq_zero]
        intro x hx hxk
        rw [beq_iff_eq] at hxk
        rw [hk] at hka
        exact hka (hxk ▸ List.mem_map_of_mem key hx)
      simp [hzero, hk]
    · have hkb : (key a == k) = false := by simpa using hk
      simp only [hkb, if_false, Nat.add_zero]
      exact ih hnd

/-- The transactional single-default update leaves the model ids unchanged. -/
theorem enforceSingleDefault_model_ids (l : List Model) (mid : String) :
    (enforceSingleDefault l mid).map (fun m => m.model_id) = l.map (fun m => m.model_id) := by
  unfold enforceSingleDefault
  rw [List.map_map]
  rfl

/-- After the transactional single-default update, the number of default
rows is the number of rows bearing the targeted `model_id`. -/
theorem countDefaults_enforceSingleDefault (l : List Model) (mid : String) :
    countDefaults (enforceSingleDefault l mid) = l.countP (fun m => m.model_id == mid) := by
  unfold countDefaults enforceSingleDefault
  rw [List.countP_map]
  rfl

/-- Updating rows in place leaves the model ids unchanged. -/
theorem update_map_model_ids (l : List Model) (mid : String) (u : UpdateModelRequest) :
    ((l.map (fun m => if m.model_id == mid then applyUpdate m u else m)).map (fun m => m.model_id))
      = l.map (fun m => m.model_id) := by
  rw [List.map_map]
  apply List.map_congr_left
  intro a _
  by_cases h : (a.model_id == mid) = true
  · simp only [Function.comp, h, if_pos]
    rfl
  · simp only [Function.comp, h]
    rfl

/-- Modelled registry invariant preservation for the sync reconciliation
fold: skipping seen ids and appending unseen inactive rows keeps the
invariant. -/
theorem registryInv_syncFold (backendIds : List String) (models : List Model)
    (h : RegistryInv models) :
    RegistryInv (backendIds.foldl
      (fun acc mid =>
        if acc.any (fun x => x.model_id == mid) then acc
        else acc ++ [syncedModel mid])
      models) := by
  induction backendIds generalizing models with
  | nil => exact h
  | cons mid rest ih =>
    rw [List.foldl_cons]
    apply ih
    split
    · exact h
    · rename_i hdup
      obtain ⟨hnd, hcnt⟩ := h
      refine ⟨?_, ?_⟩
      · rw [List.map_append, List.nodup_append]
        refine ⟨hnd, List.nodup_singleton _, ?_⟩
        simp only [List.map_cons, List.map_nil, List.disjoint_singleton]
        intro hmem
        obtain ⟨x, hx, hxid⟩ := List.mem_map.1 hmem
        exact hdup (List.any_eq_true.2 ⟨x, hx, by simpa using hxid⟩)
      · unfold countDefaults at hcnt ⊢
        rw [List.countP_append]
        have hz : List.countP (fun m => m.is_default) [syncedModel mid] = 0 := by
          simp [List.countP_cons, syncedModel]
        rw [hz, Nat.add_zero]
        exact hcnt

/-- Modelled registry invariant preservation, one write at a time: every
registry write keeps model ids unique and at most one row flagged default. -/
theorem registryInv_applyRegistryOp (models : List Model) (op : RegistryOp)
    (h : RegistryInv models) : RegistryInv (applyRegistryOp models op) := by
  obtain ⟨hnd, hcnt⟩ := h
  cases op with
  | createModel r =>
    simp only [applyRegistryOp]
    split
    · exact ⟨hnd, hcnt⟩
    · rename_i hdup
      have hfresh : ∀ x ∈ models, x.model_id ≠ r.model_id := by
        intro x hx heq
        exact hdup (List.any_eq_true.2 ⟨x, hx, by simpa using heq⟩)
      have hndapp : ((models ++ [modelOfCreate r]).map (fun m => m.model_id)).Nodup := by
        rw [List.map_append, List.nodup_append]
        refine ⟨hnd, List.nodup_singleton _, ?_⟩
        simp only [List.map_cons, List.map_nil, List.disjoint_singleton]
        intro hmem
        obtain ⟨x, hx, hxid⟩ := List.mem_map.1 hmem
        exact hfresh x hx hxid
      split
      · constructor
        · rw [enforceSingleDefault_model_ids]
          exact hndapp
        · rw [countDefaults_enforceSingleDefault]
          exact countP_key_le_one (fun m : Model => m.model_id) _ _ hndapp
      · rename_i hnotdef
        constructor
        · exact hndapp
        · have hfalse : (modelOfCreate r).is_default = false := by
            simpa using hnotdef
          unfold countDefaults at hcnt ⊢
          rw [List.countP_append]
          have hz : List.countP (fun m => m.is_default) [modelOfCreate r] = 0 := by
            simp [List.countP_cons, hfalse]
          rw [hz, Nat.add_zero]
          exact hcnt
  | updateModel mid u =>
    simp only [applyRegistryOp]
    split
    · constructor
      · rw [enforceSingleDefault_model_ids, update_map_model_ids]
        exact hnd
      · rw [countDefaults_enforceSingleDefault]
        refine countP_key_le_one (fun m : Model => m.model_id) _ _ ?_
        rw [update_map_model_ids]
        exact hnd
    · rename_i hcond
      constructor
      · rw [update_map_model_ids]
        exact hnd
      · refine le_trans ?_ hcnt
        unfold countDefaults
        rw [List.countP_map]
        apply List.countP_mono_left
        intro x hx hflag
        simp only [Function.comp] at hflag
        by_cases hid : (x.model_id == mid) = true
        · rw [if_pos hid] at hflag
          have hany : models.any (fun m => m.model_id == mid) = true :=
            List.any_eq_true.2 ⟨x, hx, hid⟩
          have hdef : u.is_default ≠ some true := by
            intro he
            exact hcond (by simp [he, hany])
          cases hu : u.is_default with
          | none =>
            simp only [applyUpdate, hu, Option.getD_none] at hflag
            exact hflag
          | some b =>
            cases b with
            | false =>
              simp [applyUpdate, hu] at hflag
            | true => exact absurd hu hdef
        · rw [if_neg hid] at hflag
          exact hflag
  | deleteModel mid =>
    simp only [applyRegistryOp]
    constructor
    · exact List.Nodup.sublist
        (List.Sublist.map (fun m => m.model_id) (List.filter_sublist models)) hnd
    · unfold countDefaults at hcnt ⊢
      exact le_trans
        ((List.filter_sublist models).countP_le (fun m => m.is_default)) hcnt
  | syncFromBackend backendIds =>
    simp only [applyRegistryOp]
    exact registryInv_syncFold backendIds models ⟨hnd, hcnt⟩

/-- Modelled registry invariant preservation across any operation
sequence. -/
theorem registryInv_applyRegistryOps (ops : List RegistryOp) (models : List Model)
    (h : RegistryInv models) : RegistryInv (applyRegistryOps models ops) := by
  induction ops generalizing models with
  | nil => exact h
  | cons op rest ih =>
    exact ih (applyRegistryOp models op) (registryInv_applyRegistryOp models op h)

/-- The sync reconciliation fold only appends: the stored rows stay in
place, in order, and everything appended is an inactive non-default row. -/
theorem syncFold_append_only (backendIds : List String) (models : List Model) :
    ∃ inserted,
      backendIds.foldl
        (fun acc mid =>
          if acc.any (fun x => x.model_id == mid) then acc
          else acc ++ [syncedModel mid])
        models = models ++ inserted ∧
      ∀ m ∈ inserted, m.is_active = false ∧ m.is_default = false := by
  induction backendIds generalizing models with
  | nil =>
    exact ⟨[], by simp, by intro m hm; cases hm⟩
  | cons mid rest ih =>
    rw [List.foldl_cons]
    by_cases hseen : (models.any (fun x => x.model_id == mid)) = true
    · rw [if_pos hseen]
      exact ih models
    · rw [if_neg hseen]
      obtain ⟨ins, heq, hins⟩ := ih (models ++ [syncedModel mid])
      refine ⟨[syncedModel mid] ++ ins, ?_, ?_⟩
      · rw [heq, List.append_assoc]
      · intro m hm
        rcases List.mem_append.1 hm with hm | hm
        · have : m = syncedModel mid := by simpa using hm
          subst this
          exact ⟨rfl, rfl⟩
        · exact hins m hm

/-- A backend model id unseen in the stored rows gets a row inserted by the
sync fold: the result holds an inactive row with that `model_id`. -/
theorem syncFold_inserts (backendIds : List String) (models : List Model)
    (mid : String) (hmem : mid ∈ backendIds)
    (hfresh : ∀ m ∈ models, m.model_id ≠ mid) :
    ∃ m ∈ backendIds.foldl
        (fun acc mid => if acc.any (fun x => x.model_id == mid) then acc
          else acc ++ [syncedModel mid])
        models, m.model_id = mid ∧ m.is_active = false := by
  induction backendIds generalizing models with
  | nil => cases hmem
  | cons a rest ih =>
    rw [List.foldl_cons]
    by_cases ha : a = mid
    · subst ha
      have hseen : (models.any (fun x => x.model_id == a)) = false := by
        rw [← Bool.not_eq_true]
        intro hany
        obtain ⟨x, hx, hxa⟩ := List.any_eq_true.1 hany
        exact hfresh x hx (by simpa using hxa)
      rw [hseen]
      simp only [Bool.false_eq_true, if_false]
      obtain ⟨ins, heq, _⟩ := syncFold_append_only rest (models ++ [syncedModel a])
      refine ⟨syncedModel a, ?_, rfl, rfl⟩
      rw [heq]
      exact List.mem_append_left _ (List.mem_append_right _ (List.mem_singleton.2 rfl))
    · have hmem' : mid ∈ rest := by
        rcases List.mem_cons.1 hmem with h | h
        · exact absurd h.symm ha
        · exact h
      split
      · exact ih models hmem' hfresh
      · refine ih (models ++ [syncedModel a]) hmem' ?_
        intro m hm
        rcases List.mem_append.1 hm with hm | hm
        · exact hfresh m hm
        · have : m = syncedModel a := by simpa using hm
          subst this
          simpa [syncedModel] using ha

/-- The default model of the spec's worked example (section 8):
`model_id: "llama3.2:1b", is_default: true`. -/
def llamaModel : Model :=
  { id := "m1", name := "llama3.2:1b", provider := "ollama",
    model_id := "llama3.2:1b", description := none, context_length := 4096,
    is_active := true, is_default := true, capabilities := [], parameters := [] }

/-- The granted model of the spec's worked example:
`model_id: "mistral:7b"`. -/
def mistralModel : Model :=
  { id := "m2", name := "mistral:7b", provider := "ollama",
    model_id := "mistral:7b", description := none, context_length := 4096,
    is_active := true, is_default := false, capabilities := [], parameters := [] }

/-- The two models of the worked example. -/
def exampleModels : List Model := [llamaModel, mistralModel]

/-- The worked example's grant: user `U` may use `mistral:7b`, active, no
expiry. -/
def grantU : AccessGrant :=
  { id := "g1", user_id := "U", model_id := "mistral:7b",
    granted_by := "admin", granted_at := 0, expires_at := none, is_active := true }

/-- An expired grant for user `U` on `mistral:7b`: it ran out at instant
50. -/
def expiredGrantU : AccessGrant :=
  { id := "g2", user_id := "U", model_id := "mistral:7b",
    granted_by := "admin", granted_at := 0, expires_at := some 50, is_active := true }

/-- The update payload of the dashboard's set-default action: only
`is_default: true`. -/
def setDefaultUpdate : UpdateModelRequest :=
  { name := none, description := none, context_length := none,
    capabilities := none, parameters := none, is_active := none,
    is_default := some true }

/-- C1: from a well-formed registry state, every sequence of registry
write operations keeps at most one model flagged default at every observed
time (each observed state is `applyRegistryOps` of a prefix, itself an
operation sequence), and the dashboard's set-as-default on model B is one
single update after which exactly one model is default — B's flag is true,
and every other row's flag, in particular the previous default's, is
false.  Atomicity holds by construction: the swap is a single transition
of the embedded system, so no state with zero or two defaults is ever
observable. -/
theorem single_default_invariant
    (ops : List RegistryOp) (s : List Model) (hinv : RegistryInv s)
    (models : List Model) (modelId : String)
    (hnd : (models.map (fun m => m.id)).Nodup)
    (hmem : modelId ∈ models.map (fun m => m.id)) :
    countDefaults (applyRegistryOps s ops) ≤ 1 ∧
    countDefaults (setAsDefault models modelId) = 1 ∧
    (∀ m ∈ setAsDefault models modelId, m.is_default = (m.id == modelId)) ∧
    (∃ m ∈ setAsDefault models modelId, m.id = modelId ∧ m.is_default = true) := by
  have hflags : ∀ m ∈ setAsDefault models modelId, m.is_default = (m.id == modelId) := by
    intro m hm
    obtain ⟨a, _, rfl⟩ := List.mem_map.1 hm
    rfl
  refine ⟨(registryInv_applyRegistryOps ops s hinv).2, ?_, hflags, ?_⟩
  · have hle : countDefaults (setAsDefault models modelId) ≤ 1 := by
      unfold countDefaults setAsDefault
      rw [List.countP_map]
      exact countP_key_le_one (fun m : Model => m.id) _ _ hnd
    have hpos : 0 < countDefaults (setAsDefault models modelId) := by
      unfold countDefaults setAsDefault
      rw [List.countP_map, List.countP_pos_iff]
      obtain ⟨a, ha, haid⟩ := List.mem_map.1 hmem
      refine ⟨a, ha, ?_⟩
      show (a.id == modelId) = true
      simp [haid]
    exact Nat.le_antisymm hle hpos
  · obtain ⟨a, ha, haid⟩ := List.mem_map.1 hmem
    refine ⟨{ a with is_default := a.id == modelId },
      List.mem_map_of_mem (fun m => { m with is_default := m.id == modelId }) ha, haid, ?_⟩
    show (a.id == modelId) = true
    simp [haid]

/-- Witness for C1 at the worked example: the two-model registry with the
set-default write on the llama row, and the dashboard map targeting the
mistral row's id. -/
theorem single_default_invariant_witness :
    countDefaults (applyRegistryOps exampleModels
      [RegistryOp.updateModel "llama3.2:1b" setDefaultUpdate]) ≤ 1 ∧
    countDefaults (setAsDefault exampleModels "m2") = 1 ∧
    (∀ m ∈ setAsDefault exampleModels "m2", m.is_default = (m.id == "m2")) ∧
    (∃ m ∈ setAsDefault exampleModels "m2", m.id = "m2" ∧ m.is_default = true) :=
  single_default_invariant [RegistryOp.updateModel "llama3.2:1b" setDefaultUpdate]
    exampleModels ⟨by decide, by decide⟩ exampleModels "m2" (by decide) (by decide)

/-- C2: for a non-admin user, resolution of a requested model succeeds
only when that model exists and an active, non-expired grant covers it;
with no requested model it falls back to the flagged default only when a
grant covers the default, and is forbidden otherwise; and on the spec's
worked example, user U (granted only `mistral:7b`) is forbidden when
requesting the ungranted default `llama3.2:1b` and succeeds when
requesting `mistral:7b`. -/
theorem nonadmin_resolution_requires_grant (uid mid : String)
    (models : List Model) (grants : List AccessGrant) (now : Nat) :
    (∀ m, resolveModel false uid (some mid) models grants now = .ok m →
      m ∈ models ∧ m.model_id = mid ∧ hasGrant grants uid mid now = true) ∧
    (∀ d, resolveModel false uid none models grants now = .ok d →
      d ∈ models ∧ d.is_default = true ∧ hasGrant grants uid d.model_id now = true) ∧
    (∀ d, models.find? (fun m => m.is_default) = some d →
      hasGrant grants uid d.model_id now = false →
      resolveModel false uid none models grants now = .error .forbidden) ∧
    resolveModel false "U" (some "llama3.2:1b") exampleModels [grantU] 100
      = .error .forbidden ∧
    resolveModel false "U" (some "mistral:7b") exampleModels [grantU] 100
      = .ok mistralModel := by
  refine ⟨?_, ?_, ?_, by rfl, by rfl⟩
  · intro m hok
    simp only [resolveModel] at hok
    split at hok
    · cases hok
    · rename_i m0 hfind
      rw [if_neg Bool.false_ne_true] at hok
      by_cases hg : hasGrant grants uid mid now = true
      · rw [if_pos hg] at hok
        simp only [Except.ok.injEq] at hok
        subst hok
        exact ⟨List.mem_of_find?_eq_some hfind,
          by simpa using List.find?_some hfind, hg⟩
      · rw [if_neg hg] at hok
        simp at hok
  · intro d hok
    simp only [resolveModel] at hok
    split at hok
    · cases hok
    · rename_i d0 hfind
      rw [if_neg Bool.false_ne_true] at hok
      by_cases hg : hasGrant grants uid d0.model_id now = true
      · rw [if_pos hg] at hok
        simp only [Except.ok.injEq] at hok
        subst hok
        exact ⟨List.mem_of_find?_eq_some hfind, List.find?_some hfind, hg⟩
      · rw [if_neg hg] at hok
        simp at hok
  · intro d hfind hg
    simp only [resolveModel, hfind]
    rw [if_neg Bool.false_ne_true, if_neg (by simp [hg])]

/-- Witness for C2: the worked example's successful resolution, unpacked
through the soundness conjunct. -/
theorem nonadmin_resolution_requires_grant_witness :
    mistralModel ∈ exampleModels ∧ mistralModel.model_id = "mistral:7b" ∧
    hasGrant [grantU] "U" "mistral:7b" 100 = true :=
  (nonadmin_resolution_requires_grant "U" "mistral:7b" exampleModels [grantU] 100).1
    mistralModel (by rfl)

/-- C3: the resolution failure outcomes — a requested model id matching no
stored model is not-found; a non-admin whose grants do not cover an
existing requested model (in particular, with only an expired grant, which
never validates) is forbidden; and with nothing requested and no model
flagged default the outcome is service-unavailable.  Concretely, user U
holding only a grant that expired at instant 50 is forbidden `mistral:7b`
at instant 100. -/
theorem resolution_failure_modes (isAdmin : Bool) (uid mid : String)
    (models : List Model) (grants : List AccessGrant) (now : Nat) :
    ((∀ m ∈ models, m.model_id ≠ mid) →
      resolveModel isAdmin uid (some mid) models grants now = .error .notFound) ∧
    (models.any (fun m => m.model_id == mid) = true →
      hasGrant grants uid mid now = false →
      resolveModel false uid (some mid) models grants now = .error .forbidden) ∧
    (∀ g : AccessGrant, ∀ t : Nat, g.expires_at = some t → t ≤ now →
      grantValid g uid mid now = false) ∧
    ((∀ m ∈ models, m.is_default = false) →
      resolveModel isAdmin uid none models grants now = .error .serviceUnavailable) ∧
    resolveModel false "U" (some "mistral:7b") exampleModels [expiredGrantU] 100
      = .error .forbidden := by
  refine ⟨?_, ?_, ?_, ?_, by rfl⟩
  · intro h
    have hfind : models.find? (fun x => x.model_id == mid) = none :=
      List.find?_eq_none.2 (fun x hx => by simpa using h x hx)
    simp [resolveModel, hfind]
  · intro hany hg
    obtain ⟨x, hx, hxid⟩ := List.any_eq_true.1 hany
    have hsome : (models.find? (fun m => m.model_id == mid)).isSome :=
      List.find?_isSome.2 ⟨x, hx, hxid⟩
    obtain ⟨m0, hfind⟩ := Option.isSome_iff_exists.1 hsome
    simp only [resolveModel, hfind]
    rw [if_neg Bool.false_ne_true, if_neg (by simp [hg])]
  · intro g t hexp hle
    have hd : decide (now < t) = false := decide_eq_false (Nat.not_lt.2 hle)
    simp [grantValid, hexp, hd]
  · intro h
    have hfind : models.find? (fun m => m.is_default) = none :=
      List.find?_eq_none.2 (fun x hx => by simp [h x hx])
    simp [resolveModel, hfind]

/-- Witness for C3: unknown id `gpt-4` is not-found on the worked example,
the expired grant never validates, and an empty registry with nothing
requested is service-unavailable. -/
theorem resolution_failure_modes_witness :
    resolveModel false "U" (some "gpt-4") exampleModels [grantU] 100
      = .error .notFound ∧
    grantValid expiredGrantU "U" "mistral:7b" 100 = false ∧
    resolveModel false "U" none [] [grantU] 100 = .error .serviceUnavailable := by
  have h := resolution_failure_modes false "U" "gpt-4" exampleModels [grantU] 100
  have h2 := resolution_failure_modes false "U" "mistral:7b" ([] : List Model) [grantU] 100
  exact ⟨h.1 (by decide), h2.2.2.1 expiredGrantU 50 (by rfl) (by decide),
    h2.2.2.2.1 (by intro m hm; cases hm)⟩

/-- C4: the extension's model switch offers exactly the models with
`is_active` true (an inactive model is never in the quick pick), and once
the default model from `GET /default-model` is loaded and no other model
was chosen, both the completion and the chat request bodies carry that
model's `model_id`. -/
theorem switch_offers_active_and_default_used (models : List Model) (m : Model)
    (tok : AuthToken) (cm : Option Model) (d : Model) (promptText : String)
    (maxTokens : Nat) (msgs : List ChatMessage) :
    (m ∈ switchModelChoices models ↔ m ∈ models ∧ m.is_active = true) ∧
    generateCodeRequest
        (loadDefaultModel { authToken := some tok, currentModel := cm } d)
        promptText maxTokens
      = some { prompt := promptText, model_id := some d.model_id,
               max_tokens := maxTokens } ∧
    chatRequest
        (loadDefaultModel { authToken := some tok, currentModel := cm } d)
        msgs maxTokens
      = some { messages := msgs, model_id := some d.model_id,
               max_tokens := maxTokens } := by
  refine ⟨?_, rfl, rfl⟩
  show m ∈ models.filter (fun x => x.is_active) ↔ m ∈ models ∧ m.is_active = true
  exact List.mem_filter

/-- C5: syncing against a backend listing only appends — the stored rows
remain, byte for byte (so their admin-set `is_active`, `is_default` and
`capabilities` are untouched and no row, in particular none referenced by
usage or access records, is deleted) — every appended row is inactive and
non-default, and every backend id with no stored row gets such a row
inserted. -/
theorem sync_preserves_rows (stored : List Model) (backendIds : List String) :
    (∃ inserted,
      applyRegistryOp stored (.syncFromBackend backendIds) = stored ++ inserted ∧
      ∀ m ∈ inserted, m.is_active = false ∧ m.is_default = false) ∧
    (∀ m ∈ stored, m ∈ applyRegistryOp stored (.syncFromBackend backendIds)) ∧
    (∀ mid ∈ backendIds, (∀ m ∈ stored, m.model_id ≠ mid) →
      ∃ m ∈ applyRegistryOp stored (.syncFromBackend backendIds),
        m.model_id = mid ∧ m.is_active = false) := by
  have hfold := syncFold_append_only backendIds stored
  refine ⟨?_, ?_, ?_⟩
  · simpa only [applyRegistryOp] using hfold
  · intro m hm
    obtain ⟨ins, heq, _⟩ := hfold
    simp only [applyRegistryOp, heq]
    exact List.mem_append_left _ hm
  · intro mid hmid hfresh
    simpa only [applyRegistryOp] using
      syncFold_inserts backendIds stored mid hmid hfresh

/-- Witness for C5: syncing the worked example against a listing that
shows a new `codellama:7b` and no longer shows the stored models keeps
both stored rows and inserts an inactive `codellama:7b` row. -/
theorem sync_preserves_rows_witness :
    (llamaModel ∈ applyRegistryOp exampleModels (.syncFromBackend ["codellama:7b"]) ∧
     mistralModel ∈ applyRegistryOp exampleModels (.syncFromBackend ["codellama:7b"])) ∧
    (∃ m ∈ applyRegistryOp exampleModels (.syncFromBackend ["codellama:7b"]),
      m.model_id = "codellama:7b" ∧ m.is_active = false) := by
  have h := sync_preserves_rows exampleModels ["codellama:7b"]
  exact ⟨⟨h.2.1 llamaModel (by decide), h.2.1 mistralModel (by decide)⟩,
    h.2.2 "codellama:7b" (by decide) (by decide)⟩

/-- C6: in the dashboard auth store's initial state — before any login or
token check — `isAuthenticated` is true while `token` and `user` are both
null, so `ProtectedRoute` renders the protected children for a client
holding no credential. -/
theorem initial_state_renders_protected :
    initialAuthState.isAuthenticated = true ∧
    initialAuthState.token = none ∧
    initialAuthState.user = none ∧
    protectedRoute initialAuthState = .renderChildren :=
  ⟨rfl, rfl, rfl, rfl⟩

/-- C7: both clients send the credentials as form-encoded fields in a POST
to the token route, and after a successful login the returned access token
is attached as a `Bearer` Authorization header to every subsequent request
— by the dashboard's axios default header, and by the interceptor the
extension installs on its API and model-manager clients. -/
theorem login_form_encoded_and_bearer_attached (username password : String)
    (s : AuthState) (d : AxiosDefaults) (access_token : String) (u : User)
    (st : ExtensionState) (tok : AuthToken) (req : HttpRequest) :
    (dashboardTokenRequest username password).method = "POST" ∧
    (dashboardTokenRequest username password).path = "/api/auth/token" ∧
    (dashboardTokenRequest username password).contentType
      = some "application/x-www-form-urlencoded" ∧
    (dashboardTokenRequest username password).formFields
      = [("username", username), ("password", password)] ∧
    (extensionTokenRequest username password).method = "POST" ∧
    (extensionTokenRequest username password).path = "/token" ∧
    (extensionTokenRequest username password).contentType
      = some "application/x-www-form-urlencoded" ∧
    axiosSend (dashboardLoginSuccess s d access_token u).2 req
      = { req with authorization := some ("Bearer " ++ access_token) } ∧
    applyAuthInterceptor (extensionLoginSuccess st tok) req
      = { req with authorization := some ("Bearer " ++ tok.access_token) } :=
  ⟨rfl, rfl, rfl, rfl, rfl, rfl, rfl, rfl, rfl⟩

/-- C8: the usage log is append-only — after any sequence of usage
operations the previous log is a prefix of the new one, so no stored
record is ever modified or deleted, and the stats read leaves the log
unchanged. -/
theorem usage_log_append_only (ops : List UsageOp) (log : List UsageRecord) :
    log <+: applyUsageOps log ops ∧ applyUsageOp log .getStats = log := by
  refine ⟨?_, rfl⟩
  induction ops generalizing log with
  | nil => exact List.prefix_rfl
  | cons op rest ih =>
    refine List.IsPrefix.trans ?_ (ih (applyUsageOp log op))
    cases op with
    | logUsage r => exact ⟨[r], rfl⟩
    | getStats => exact List.prefix_rfl

/-- C9: whenever `checkAuth` runs with a stored token and the validation
request fails, the store is reset in full — `user` and `token` null,
`isAuthenticated` false — and the axios default Authorization header is
removed; no failing run leaves a token in the store. -/
theorem checkAuth_failure_resets (u0 : Option User) (tok : String)
    (auth ld : Bool) (d : AxiosDefaults) :
    checkAuth { user := u0, token := some tok, isAuthenticated := auth,
                isLoading := ld } d (.error ())
      = ({ user := none, token := none, isAuthenticated := false,
           isLoading := ld }, { authorization := none }) :=
  rfl
